import Mathlib

/-!
Verification of the Hawck input daemon core (KBDDaemon.cpp).

The definitions below shallowly embed the passthrough key registry
(`unloadPassthrough`, `loadPassthrough`, the permission gate of the
`FSEvent` overload), one iteration of the event-dispatch loop in
`KBDDaemon::run` (passthrough filtering, the peer protocol, the
socket-error recovery path, the read-error path), and the hotplug
permission-wait loop of the `input_fsw` callback.  Effects that leave the
process (syslog, uinput writes, socket traffic, lock/unlock ioctls) are
recorded as an explicit action trace; external outcomes the daemon merely
reacts to (CSV parse results, socket failures, lock failures, stat
results) are supplied as oracle parameters.
-/

/-- KeyEvent mirrors the Linux `input_event` payload carried in a
`KBDAction`: timestamp, event type, 16-bit code and signed value. -/
structure KeyEvent where
  tv_sec : Int
  tv_usec : Int
  type : Nat
  code : Nat
  value : Int
deriving DecidableEq

/-- mapLookup models `key_sources.find(path)` on the `std::map` from
canonical paths to owned key vectors (represented as an association
list with unique keys). -/
def mapLookup (p : String) : List (String × List Int) → Option (List Int)
  | [] => none
  | (a, v) :: t => if a = p then some v else mapLookup p t

/-- mapErase models `key_sources.erase(path)`: every entry whose key is
`path` is removed (a `std::map` holds at most one). -/
def mapErase (p : String) : List (String × List Int) → List (String × List Int)
  | [] => []
  | (a, v) :: t => if a = p then mapErase p t else (a, v) :: mapErase p t

/-- Registry state of the passthrough key manager: `key_sources` is the
per-file source map, `passthrough_keys` the merged key set. -/
structure Registry where
  key_sources : List (String × List Int)
  passthrough_keys : Finset Int
deriving DecidableEq

/-- unionSources is the union of the code sets of all live sources,
the right-hand side of the registry invariant. -/
def unionSources (l : List (String × List Int)) : Finset Int :=
  l.foldr (fun pr acc => pr.2.toFinset ∪ acc) ∅

/-- unloadPassthrough mirrors `KBDDaemon::unloadPassthrough`: if the path
has a live source, erase its codes from `passthrough_keys`, drop the
source, then re-insert the codes of every remaining source. -/
def unloadPassthrough (path : String) (s : Registry) : Registry :=
  match mapLookup path s.key_sources with
  | none => s
  | some vec =>
    let m1 := vec.foldl (fun m c => m.erase c) s.passthrough_keys
    let rest := mapErase path s.key_sources
    { key_sources := rest,
      passthrough_keys :=
        rest.foldl (fun m pr => pr.2.foldl (fun m c => insert c m) m) m1 }

/-- loadStep mirrors one pass of the cell loop in
`KBDDaemon::loadPassthrough`: a cell whose `stoi` failed is skipped,
a non-negative parsed value is inserted into `passthrough_keys` and
pushed onto `cells_i`, a negative one is dropped. -/
def loadStep (acc : Finset Int × List Int) (c : Option Int) : Finset Int × List Int :=
  match c with
  | none => acc
  | some i => if 0 ≤ i then (insert i acc.1, acc.2 ++ [i]) else acc

/-- acceptedCodes is the list of codes the cell loop accepts: parsed
cells with a non-negative value, in file order. -/
def acceptedCodes (cells : List (Option Int)) : List Int :=
  cells.filterMap (fun c => match c with
    | none => none
    | some i => if 0 ≤ i then some i else none)

/-- LoadOutcome is the oracle for the fallible part of
`KBDDaemon::loadPassthrough(std::string)`: `realpathFail` is a null
return from `realpath()` (SystemError thrown before any registry
mutation), `csvFail p` is a `CSV::CSVError` thrown by the CSV
constructor or `getColCells` (after `unloadPassthrough(path)` already
ran), and `csvOk p cells` is a successful parse of the `key_code`
column, each cell being `some i` when `stoi` succeeded with value `i`
and `none` when it threw. -/
inductive LoadOutcome where
  | realpathFail
  | csvFail (path : String)
  | csvOk (path : String) (cells : List (Option Int))
deriving DecidableEq

/-- loadPassthrough mirrors `KBDDaemon::loadPassthrough(std::string)`.
Both exception paths are caught inside the function (syslog only), so
it is total on the registry; the CSV failure happens after the
unconditional `unloadPassthrough(path)`. -/
def loadPassthrough (o : LoadOutcome) (s : Registry) : Registry :=
  match o with
  | LoadOutcome.realpathFail => s
  | LoadOutcome.csvFail p => unloadPassthrough p s
  | LoadOutcome.csvOk p cells =>
    let s1 := unloadPassthrough p s
    let r := cells.foldl loadStep (s1.passthrough_keys, [])
    { key_sources := s1.key_sources ++ [(p, r.2)], passthrough_keys := r.1 }

/-- loadPassthroughFS mirrors `KBDDaemon::loadPassthrough(FSEvent*)`:
`perm = st_mode & (S_IRWXU|S_IRWXG|S_IRWXO)`, and the CSV load only runs
when `perm == 0644 && st_uid == getuid()`; otherwise the event is only
logged. -/
def loadPassthroughFS (stMode stUid uid : Nat) (o : LoadOutcome) (s : Registry) : Registry :=
  if stMode &&& 0o777 = 0o644 ∧ stUid = uid then loadPassthrough o s else s

/-- RegOp is one registry operation as dispatched by the `keys_fsw`
callback: IN_DELETE_SELF runs `unloadPassthrough(path)`, IN_CREATE and
IN_MODIFY run `loadPassthrough`. -/
inductive RegOp where
  | load (o : LoadOutcome)
  | unload (path : String)
deriving DecidableEq

/-- applyOp applies one registry operation. -/
def applyOp (op : RegOp) (s : Registry) : Registry :=
  match op with
  | RegOp.load o => loadPassthrough o s
  | RegOp.unload p => unloadPassthrough p s

/-- applyOps applies a sequence of registry operations in order. -/
def applyOps (ops : List RegOp) (s : Registry) : Registry :=
  ops.foldl (fun s op => applyOp op s) s

/-- initRegistry is the registry at daemon start, before
`initPassthrough` replays the directory scan as load operations. -/
def initRegistry : Registry := { key_sources := [], passthrough_keys := ∅ }

/-- keysNodup states that the source map holds each path at most once,
as a `std::map` does. -/
def keysNodup (l : List (String × List Int)) : Prop :=
  (l.map Prod.fst).Nodup

/-- RegInv is the registry invariant: unique source paths and the merged
set equal to the union of the live sources. -/
def RegInv (s : Registry) : Prop :=
  keysNodup s.key_sources ∧ s.passthrough_keys = unionSources s.key_sources

/-- KBDState mirrors the `KBDState` enum of the Keyboard handle as used
in `KBDDaemon::run`. -/
inductive KBDState where
  | OPEN
  | LOCKED
  | DISABLED
deriving DecidableEq

/-- Kbd is one keyboard handle: the id stands for the C++ object
identity (the pointer), with its current state. -/
structure Kbd where
  id : Nat
  state : KBDState
deriving DecidableEq

/-- DaemonState is the mutable loop state of `KBDDaemon::run` touched by
the claims: the active list `available_kbds` and the pending-replug
list `pulled_kbds`. -/
structure DaemonState where
  available_kbds : List Kbd
  pulled_kbds : List Kbd
deriving DecidableEq

/-- Act is one externally visible action of a loop iteration: uinput
emitter calls (`emit`, `flush`, `upAll`), peer-socket traffic (`send`,
`recon`) and keyboard lifecycle calls. -/
inductive Act where
  | emit (ev : KeyEvent)
  | flush
  | upAll
  | send (ev : KeyEvent)
  | recon
  | unlockKbd (id : Nat)
  | lockKbd (id : Nat)
  | disableKbd (id : Nat)
deriving DecidableEq

/-- actEmits extracts, in order, the events written to the uinput
emitter from an action trace. -/
def actEmits (l : List Act) : List KeyEvent :=
  l.filterMap (fun a => match a with | Act.emit ev => some ev | _ => none)

/-- unlockAllKbds mirrors the first recovery loop of the SocketError
handler: every keyboard in `available_kbds` gets `unlock()`; a
`KeyboardError` there is answered with `disable()`.  The oracle `uf`
tells which keyboards fail to unlock.  Modelled from the spec: a
successful `unlock()` transitions the handle to OPEN (Keyboard.cpp is
not part of the sources). -/
def unlockAllKbds (uf : Nat → Bool) : List Kbd → List Act × List Kbd
  | [] => ([], [])
  | k :: ks =>
    let r := unlockAllKbds uf ks
    if uf k.id then
      (Act.unlockKbd k.id :: Act.disableKbd k.id :: r.1,
       { k with state := KBDState.DISABLED } :: r.2)
    else
      (Act.unlockKbd k.id :: r.1, { k with state := KBDState.OPEN } :: r.2)

/-- lockAllKbds mirrors the second recovery loop: every keyboard in
`available_kbds` gets `lock()`; a `KeyboardError` there is only
reported via syslog and the keyboard is left as it is.  The oracle `lf`
tells which keyboards fail to lock.  Modelled from the spec: a
successful `lock()` transitions the handle to LOCKED. -/
def lockAllKbds (lf : Nat → Bool) : List Kbd → List Act × List Kbd
  | [] => ([], [])
  | k :: ks =>
    let r := lockAllKbds lf ks
    if lf k.id then
      (Act.lockKbd k.id :: r.1, k :: r.2)
    else
      (Act.lockKbd k.id :: r.1, { k with state := KBDState.LOCKED } :: r.2)

/-- socketErrorRecovery mirrors the `catch (const SocketError&)` block of
`KBDDaemon::run`: emit the saved original event, `upAll` and `flush`
twice, unlock all available keyboards (disabling unlock failures),
`recon()` the peer channel, then re-lock all available keyboards
(logging lock failures). -/
def socketErrorRecovery (origEv : KeyEvent) (uf lf : Nat → Bool)
    (st : DaemonState) : DaemonState × List Act :=
  let u := unlockAllKbds uf st.available_kbds
  let l := lockAllKbds lf u.2
  ({ st with available_kbds := l.2 },
   ([Act.emit origEv, Act.upAll, Act.flush, Act.upAll, Act.flush]
     ++ u.1 ++ (Act.recon :: l.1)))

/-- PeerResult is the oracle for one round of the peer protocol:
`ok replies` means the macro daemon answered with `replies` (the events
of the non-done messages, in order) and then a done message; `errAt part`
means a `SocketError` was raised after the events in `part` had already
been received and emitted into the uinput buffer (`part = []` covers a
failure of `send` itself). -/
inductive PeerResult where
  | ok (replies : List KeyEvent)
  | errAt (part : List KeyEvent)

/-- ReadResult is the oracle for the multiplex-and-read step of one loop
iteration: `timeout` is `kbdMultiplex` returning -1, `ok i ev` means
keyboard `i` of the snapshot delivered `ev`, `fail i` means `kbd->get`
threw a `KeyboardError` on keyboard `i`. -/
inductive ReadResult where
  | timeout
  | ok (i : Nat) (ev : KeyEvent)
  | fail (i : Nat)

/-- dispatchEvent mirrors the tail of a loop iteration once an event was
read from a LOCKED keyboard: the passthrough test against the merged
set, the peer round-trip with its SocketError recovery, or the direct
emit-and-flush for non-passthrough keys. -/
def dispatchEvent (merged : Finset Int) (ev : KeyEvent) (peer : PeerResult)
    (uf lf : Nat → Bool) (st : DaemonState) : DaemonState × List Act :=
  if (ev.code : Int) ∈ merged then
    match peer with
    | PeerResult.ok replies =>
      (st, Act.send ev :: (replies.map Act.emit ++ [Act.flush]))
    | PeerResult.errAt part =>
      let r := socketErrorRecovery ev uf lf st
      (r.1, Act.send ev :: (part.map Act.emit ++ r.2))
  else
    (st, [Act.emit ev, Act.flush])

/-- runIteration is one pass of the `for (;;)` loop of `KBDDaemon::run`
(the loop has no exit: every iteration yields a successor state).  A
read error disables the keyboard, erases it from `available_kbds` and
appends it to `pulled_kbds`; an event from a not-yet-LOCKED keyboard is
discarded (locking OPEN keyboards); an event from a LOCKED keyboard is
dispatched. -/
def runIteration (merged : Finset Int) (read : ReadResult) (peer : PeerResult)
    (uf lf : Nat → Bool) (st : DaemonState) : DaemonState × List Act :=
  match read with
  | ReadResult.timeout => (st, [])
  | ReadResult.fail i =>
    match st.available_kbds.get? i with
    | none => (st, [])
    | some kbd =>
      ({ available_kbds := st.available_kbds.erase kbd,
         pulled_kbds := st.pulled_kbds ++ [{ kbd with state := KBDState.DISABLED }] },
       [Act.disableKbd kbd.id])
  | ReadResult.ok i ev =>
    match st.available_kbds.get? i with
    | none => (st, [])
    | some kbd =>
      match kbd.state with
      | KBDState.LOCKED => dispatchEvent merged ev peer uf lf st
      | KBDState.OPEN =>
        let lockNow := fun (k : Kbd) =>
          if k.id = kbd.id then { k with state := KBDState.LOCKED } else k
        ({ st with available_kbds := st.available_kbds.map lockNow },
         [Act.lockKbd kbd.id])
      | KBDState.DISABLED => (st, [])

/-- FSW_MAX_WAIT_PERMISSIONS_US is the 5 s hotplug permission-wait
budget. -/
def FSW_MAX_WAIT_PERMISSIONS_US : Nat := 5 * 1000000

/-- StatRes is one `stat()` observation of the hotplugged node: whether
the call succeeded, and the reported `st_mode` and `st_gid`. -/
structure StatRes where
  ok : Bool
  mode : Nat
  gid : Nat
deriving DecidableEq

/-- isChr mirrors `S_ISCHR(st_mode)`. -/
def isChr (mode : Nat) : Bool := mode &&& 0o170000 == 0o020000

/-- hotplugWaitContinue mirrors the do-while condition of the hotplug
callback verbatim:
`ret != -1 && !(4 & grp_perm && grp_perm & 2) && stbuf.st_gid != input_gid`
with `grp_perm = stbuf.st_mode & S_IRWXG`. -/
def hotplugWaitContinue (st : StatRes) (inputGid : Nat) : Bool :=
  let grp_perm := st.mode &&& 0o70
  st.ok && !((4 &&& grp_perm != 0) && (grp_perm &&& 2 != 0)) && (st.gid != inputGid)

/-- WaitResult is the outcome of the permission-wait loop: the callback
returns early for a non-character-device node or on timeout, otherwise
it proceeds to match and re-grab the keyboard. -/
inductive WaitResult where
  | notChar
  | timeout
  | proceed
deriving DecidableEq

/-- hotplugWaitAux runs the do-while body: sleep 100 us, `stat`, abort
for a stat-able non-character device, abort once the accumulated wait
exceeds the budget, and otherwise re-test the loop condition.  `n` is
the number of completed sleeps, so the accumulated wait is
`(n + 1) * 100` at the test; the fuel is an upper bound on iterations
that the internal timeout check reaches first. -/
def hotplugWaitAux (stats : Nat → StatRes) (inputGid : Nat) : Nat → Nat → WaitResult
  | _, 0 => WaitResult.timeout
  | n, fuel + 1 =>
    let st := stats n
    if st.ok && !(isChr st.mode) then WaitResult.notChar
    else if (n + 1) * 100 > FSW_MAX_WAIT_PERMISSIONS_US then WaitResult.timeout
    else if hotplugWaitContinue st inputGid then hotplugWaitAux stats inputGid (n + 1) fuel
    else WaitResult.proceed

/-- hotplugWait is the whole permission-wait loop of the hotplug
callback, fed by the stream of stat observations. -/
def hotplugWait (stats : Nat → StatRes) (inputGid : Nat) : WaitResult :=
  hotplugWaitAux stats inputGid 0 50001

lemma foldl_insert_eq_union (l : List Int) (m : Finset Int) :
    l.foldl (fun m c => insert c m) m = m ∪ l.toFinset := by
  induction l generalizing m with
  | nil => simp
  | cons c t ih =>
    rw [List.foldl_cons, ih, List.toFinset_cons, Finset.insert_union, Finset.union_insert]

lemma foldl_readd (l : List (String × List Int)) (m : Finset Int) :
    l.foldl (fun m pr => pr.2.foldl (fun m c => insert c m) m) m
      = m ∪ unionSources l := by
  induction l generalizing m with
  | nil => simp [unionSources]
  | cons pr t ih =>
    rw [List.foldl_cons, foldl_insert_eq_union, ih]
    simp only [unionSources, List.foldr_cons]
    rw [Finset.union_assoc]

lemma foldl_erase_eq_sdiff (l : List Int) (m : Finset Int) :
    l.foldl (fun m c => m.erase c) m = m \ l.toFinset := by
  induction l generalizing m with
  | nil => simp
  | cons c t ih =>
    simp only [List.foldl_cons, ih, List.toFinset_cons]
    ext x
    simp [Finset.mem_sdiff, Finset.mem_erase, Finset.mem_insert]
    tauto

lemma foldl_loadStep (cells : List (Option Int)) (m : Finset Int) (acc : List Int) :
    cells.foldl loadStep (m, acc)
      = (m ∪ (acceptedCodes cells).toFinset, acc ++ acceptedCodes cells) := by
  induction cells generalizing m acc with
  | nil => simp [acceptedCodes]
  | cons c t ih =>
    cases c with
    | none => simpa [loadStep, acceptedCodes] using ih m acc
    | some i =>
      by_cases h : 0 ≤ i
      · have hacc : acceptedCodes (some i :: t) = i :: acceptedCodes t := by
          simp [acceptedCodes, h]
        have hstep : loadStep (m, acc) (some i) = (insert i m, acc ++ [i]) := by
          simp [loadStep, h]
        rw [List.foldl_cons, hstep, ih, hacc, List.toFinset_cons]
        simp only [Prod.mk.injEq]
        exact ⟨by rw [Finset.insert_union, Finset.union_insert], by simp⟩
      · simpa [loadStep, h, acceptedCodes] using ih m acc

lemma mapLookup_eq_none_iff (p : String) (l : List (String × List Int)) :
    mapLookup p l = none ↔ p ∉ l.map Prod.fst := by
  induction l with
  | nil => simp [mapLookup]
  | cons pr t ih =>
    obtain ⟨a, v⟩ := pr
    by_cases h : a = p
    · subst h
      simp [mapLookup]
    · simp [mapLookup, h, ih, Ne.symm h]

lemma mapErase_of_lookup_none (p : String) (l : List (String × List Int))
    (h : mapLookup p l = none) : mapErase p l = l := by
  induction l with
  | nil => rfl
  | cons pr t ih =>
    obtain ⟨a, v⟩ := pr
    by_cases ha : a = p
    · subst ha
      simp [mapLookup] at h
    · simp only [mapLookup, ha, if_neg, if_false] at h ⊢
      simp [mapErase, ha, ih h]

lemma mapLookup_mapErase_self (p : String) (l : List (String × List Int)) :
    mapLookup p (mapErase p l) = none := by
  induction l with
  | nil => rfl
  | cons pr t ih =>
    obtain ⟨a, v⟩ := pr
    by_cases ha : a = p
    · simpa [mapErase, ha] using ih
    · simpa [mapErase, mapLookup, ha] using ih

lemma mem_mapErase (pr : String × List Int) (p : String) (l : List (String × List Int)) :
    pr ∈ mapErase p l ↔ pr ∈ l ∧ pr.1 ≠ p := by
  induction l with
  | nil => simp [mapErase]
  | cons hd t ih =>
    obtain ⟨a, v⟩ := hd
    by_cases ha : a = p
    · subst ha
      have hme : mapErase a ((a, v) :: t) = mapErase a t := by
        simp [mapErase]
      rw [hme, ih]
      simp only [List.mem_cons]
      constructor
      · rintro ⟨h1, h2⟩
        exact ⟨Or.inr h1, h2⟩
      · rintro ⟨h | h, hne⟩
        · subst h
          simp at hne
        · exact ⟨h, hne⟩
    · simp only [mapErase, if_neg ha, List.mem_cons, ih]
      constructor
      · rintro (h | ⟨h1, h2⟩)
        · exact ⟨Or.inl h, by rw [h]; exact ha⟩
        · exact ⟨Or.inr h1, h2⟩
      · rintro ⟨h | h, hne⟩
        · exact Or.inl h
        · exact Or.inr ⟨h, hne⟩

lemma keys_mapErase_subset (q p : String) (l : List (String × List Int))
    (h : q ∈ (mapErase p l).map Prod.fst) : q ∈ l.map Prod.fst := by
  simp only [List.mem_map] at h ⊢
  obtain ⟨pr, hmem, hq⟩ := h
  exact ⟨pr, ((mem_mapErase pr p l).mp hmem).1, hq⟩

lemma keysNodup_mapErase (p : String) (l : List (String × List Int))
    (h : keysNodup l) : keysNodup (mapErase p l) := by
  induction l with
  | nil => exact h
  | cons pr t ih =>
    obtain ⟨a, v⟩ := pr
    simp only [keysNodup, List.map_cons, List.nodup_cons] at h
    by_cases ha : a = p
    · simpa [mapErase, ha] using ih h.2
    · simp only [mapErase, if_neg ha, keysNodup, List.map_cons, List.nodup_cons]
      refine ⟨fun hc => h.1 (keys_mapErase_subset a p t hc), ih h.2⟩

lemma unionSources_mapErase (p : String) (vec : List Int)
    (l : List (String × List Int)) (hl : mapLookup p l = some vec)
    (hnd : keysNodup l) :
    unionSources l = vec.toFinset ∪ unionSources (mapErase p l) := by
  induction l with
  | nil => simp [mapLookup] at hl
  | cons pr t ih =>
    obtain ⟨a, v⟩ := pr
    simp only [keysNodup, List.map_cons, List.nodup_cons] at hnd
    by_cases ha : a = p
    · subst ha
      simp [mapLookup] at hl
      subst hl
      have ht : mapErase a t = t := by
        apply mapErase_of_lookup_none
        rw [mapLookup_eq_none_iff]
        exact hnd.1
      simp [mapErase, unionSources, ht]
    · simp only [mapLookup, if_neg ha] at hl
      have hu := ih hl hnd.2
      simp only [mapErase, if_neg ha, unionSources, List.foldr_cons] at hu ⊢
      rw [hu, Finset.union_left_comm]

lemma mapLookup_append_self (p : String) (v : List Int)
    (l : List (String × List Int)) (h : mapLookup p l = none) :
    mapLookup p (l ++ [(p, v)]) = some v := by
  induction l with
  | nil => simp [mapLookup]
  | cons pr t ih =>
    obtain ⟨a, w⟩ := pr
    by_cases ha : a = p
    · subst ha
      simp [mapLookup] at h
    · have h' : mapLookup p t = none := by
        simpa [mapLookup, ha] using h
      rw [List.cons_append]
      simp only [mapLookup, if_neg ha]
      exact ih h'

lemma unionSources_append (l1 l2 : List (String × List Int)) :
    unionSources (l1 ++ l2) = unionSources l1 ∪ unionSources l2 := by
  induction l1 with
  | nil => simp [unionSources]
  | cons pr t ih =>
    simp only [List.cons_append, unionSources, List.foldr_cons] at ih ⊢
    rw [ih, Finset.union_assoc]

lemma source_subset_unionSources (pr : String × List Int)
    (l : List (String × List Int)) (h : pr ∈ l) :
    pr.2.toFinset ⊆ unionSources l := by
  induction l with
  | nil => simp at h
  | cons hd t ih =>
    rcases List.mem_cons.mp h with h | h
    · subst h
      simp only [unionSources, List.foldr_cons]
      exact Finset.subset_union_left
    · simp only [unionSources, List.foldr_cons]
      exact (ih h).trans Finset.subset_union_right

lemma unloadPassthrough_eq_of_none (p : String) (s : Registry)
    (hl : mapLookup p s.key_sources = none) : unloadPassthrough p s = s := by
  unfold unloadPassthrough
  rw [hl]

lemma unloadPassthrough_eq_of_lookup (p : String) (s : Registry) (vec : List Int)
    (hl : mapLookup p s.key_sources = some vec) :
    unloadPassthrough p s =
      { key_sources := mapErase p s.key_sources,
        passthrough_keys :=
          (s.passthrough_keys \ vec.toFinset)
            ∪ unionSources (mapErase p s.key_sources) } := by
  unfold unloadPassthrough
  rw [hl]
  simp only [foldl_readd, foldl_erase_eq_sdiff]

lemma loadPassthrough_csvOk_eq (p : String) (cells : List (Option Int)) (s : Registry) :
    loadPassthrough (LoadOutcome.csvOk p cells) s =
      { key_sources := (unloadPassthrough p s).key_sources ++ [(p, acceptedCodes cells)],
        passthrough_keys :=
          (unloadPassthrough p s).passthrough_keys ∪ (acceptedCodes cells).toFinset } := by
  simp [loadPassthrough, foldl_loadStep]

lemma lookup_unload_none (p : String) (s : Registry) :
    mapLookup p (unloadPassthrough p s).key_sources = none := by
  cases hl : mapLookup p s.key_sources with
  | none => rw [unloadPassthrough_eq_of_none p s hl]; exact hl
  | some vec =>
    rw [unloadPassthrough_eq_of_lookup p s vec hl]
    exact mapLookup_mapErase_self p s.key_sources

lemma unload_preserves (p : String) (s : Registry) (h : RegInv s) :
    RegInv (unloadPassthrough p s) := by
  obtain ⟨hnd, hm⟩ := h
  cases hl : mapLookup p s.key_sources with
  | none => rw [unloadPassthrough_eq_of_none p s hl]; exact ⟨hnd, hm⟩
  | some vec =>
    rw [unloadPassthrough_eq_of_lookup p s vec hl]
    refine ⟨keysNodup_mapErase p _ hnd, ?_⟩
    rw [hm, unionSources_mapErase p vec _ hl hnd]
    ext x
    simp only [Finset.mem_union, Finset.mem_sdiff]
    tauto

lemma load_preserves (o : LoadOutcome) (s : Registry) (h : RegInv s) :
    RegInv (loadPassthrough o s) := by
  cases o with
  | realpathFail => exact h
  | csvFail p => exact unload_preserves p s h
  | csvOk p cells =>
    obtain ⟨hnd1, hm1⟩ := unload_preserves p s h
    rw [loadPassthrough_csvOk_eq]
    have hpn : p ∉ (unloadPassthrough p s).key_sources.map Prod.fst := by
      rw [← mapLookup_eq_none_iff]
      exact lookup_unload_none p s
    constructor
    · simp only [keysNodup, List.map_append, List.map_cons, List.map_nil] at hnd1 ⊢
      rw [List.nodup_append]
      refine ⟨hnd1, List.nodup_singleton p, ?_⟩
      intro a ha hmem
      simp only [List.mem_singleton] at hmem
      subst hmem
      exact hpn ha
    · rw [unionSources_append, hm1]
      simp [unionSources]

lemma applyOps_preserves (ops : List RegOp) (s : Registry) (h : RegInv s) :
    RegInv (applyOps ops s) := by
  induction ops generalizing s with
  | nil => exact h
  | cons op t ih =>
    have h1 : RegInv (applyOp op s) := by
      cases op with
      | load o => exact load_preserves o s h
      | unload p => exact unload_preserves p s h
    exact ih (applyOp op s) h1

lemma initRegistry_inv : RegInv initRegistry := by
  constructor
  · simp [keysNodup, initRegistry]
  · simp [initRegistry, unionSources]

lemma mem_key_sources_unload (p q : String) (vec : List Int) (s : Registry)
    (hmem : (q, vec) ∈ s.key_sources) (hqp : q ≠ p) :
    (q, vec) ∈ (unloadPassthrough p s).key_sources := by
  cases hl : mapLookup p s.key_sources with
  | none => rw [unloadPassthrough_eq_of_none p s hl]; exact hmem
  | some w =>
    rw [unloadPassthrough_eq_of_lookup p s w hl]
    exact (mem_mapErase (q, vec) p s.key_sources).mpr ⟨hmem, hqp⟩

/-- C2: after any sequence of load and unload operations from the
initial registry, the merged set `passthrough_keys` equals the union of
the code sets of all live sources; in particular a further unload of
one source keeps every code that another live source still holds. -/
theorem c2_merged_is_union (ops : List RegOp) :
    (applyOps ops initRegistry).passthrough_keys
        = unionSources (applyOps ops initRegistry).key_sources ∧
    (∀ p q vec c, (q, vec) ∈ (applyOps ops initRegistry).key_sources → q ≠ p →
        c ∈ vec →
        c ∈ (unloadPassthrough p (applyOps ops initRegistry)).passthrough_keys) := by
  have hinv := applyOps_preserves ops initRegistry initRegistry_inv
  refine ⟨hinv.2, ?_⟩
  intro p q vec c hmem hqp hc
  have hinv2 := unload_preserves p _ hinv
  rw [hinv2.2]
  have hmem2 := mem_key_sources_unload p q vec _ hmem hqp
  exact source_subset_unionSources (q, vec) _ hmem2 (List.mem_toFinset.mpr hc)

/-- Witness for c2_merged_is_union: two loaded files sharing code 11;
after unloading the first, 11 survives through the second source. -/
theorem c2_merged_is_union_witness :
    ((applyOps [RegOp.load (LoadOutcome.csvOk "a" [some 10, some 11]),
                RegOp.load (LoadOutcome.csvOk "b" [some 11, some 12])]
        initRegistry).passthrough_keys
      = unionSources (applyOps [RegOp.load (LoadOutcome.csvOk "a" [some 10, some 11]),
                RegOp.load (LoadOutcome.csvOk "b" [some 11, some 12])]
        initRegistry).key_sources) ∧
    (11 : Int) ∈ (unloadPassthrough "a"
      (applyOps [RegOp.load (LoadOutcome.csvOk "a" [some 10, some 11]),
                 RegOp.load (LoadOutcome.csvOk "b" [some 11, some 12])]
        initRegistry)).passthrough_keys :=
  ⟨(c2_merged_is_union _).1,
   (c2_merged_is_union _).2 "a" "b" [11, 12] 11 (by decide) (by decide) (by decide)⟩

lemma mapErase_append (p : String) (l1 l2 : List (String × List Int)) :
    mapErase p (l1 ++ l2) = mapErase p l1 ++ mapErase p l2 := by
  induction l1 with
  | nil => simp [mapErase]
  | cons pr t ih =>
    obtain ⟨a, v⟩ := pr
    by_cases ha : a = p
    · simp [mapErase, ha, ih]
    · simp [mapErase, ha, ih]

lemma unionSources_unload_subset (p : String) (s : Registry)
    (h : unionSources s.key_sources ⊆ s.passthrough_keys) :
    unionSources (unloadPassthrough p s).key_sources
      ⊆ (unloadPassthrough p s).passthrough_keys := by
  cases hl : mapLookup p s.key_sources with
  | none => rw [unloadPassthrough_eq_of_none p s hl]; exact h
  | some vec =>
    rw [unloadPassthrough_eq_of_lookup p s vec hl]
    exact Finset.subset_union_right

/-- C9: loading the same passthrough file twice in succession (same
path, same parse outcome, since the file is unchanged) leaves the
registry exactly as after a single load, in every registry state whose
merged set covers the union of its sources (which holds in every
reachable state by c2_merged_is_union). -/
theorem c9_load_idempotent (o : LoadOutcome) (s : Registry)
    (hinv : unionSources s.key_sources ⊆ s.passthrough_keys) :
    loadPassthrough o (loadPassthrough o s) = loadPassthrough o s := by
  cases o with
  | realpathFail => rfl
  | csvFail p =>
    show unloadPassthrough p (unloadPassthrough p s) = unloadPassthrough p s
    exact unloadPassthrough_eq_of_none p _ (lookup_unload_none p s)
  | csvOk p cells =>
    have hA := lookup_unload_none p s
    have hUsub := unionSources_unload_subset p s hinv
    have hlk : mapLookup p ((unloadPassthrough p s).key_sources
        ++ [(p, acceptedCodes cells)]) = some (acceptedCodes cells) :=
      mapLookup_append_self p (acceptedCodes cells) (unloadPassthrough p s).key_sources hA
    have hme : mapErase p ((unloadPassthrough p s).key_sources
        ++ [(p, acceptedCodes cells)]) = (unloadPassthrough p s).key_sources := by
      rw [mapErase_append, mapErase_of_lookup_none p _ hA]
      simp [mapErase]
    have hu2 : unloadPassthrough p (loadPassthrough (LoadOutcome.csvOk p cells) s)
        = { key_sources := (unloadPassthrough p s).key_sources,
            passthrough_keys :=
              (((unloadPassthrough p s).passthrough_keys
                  ∪ (acceptedCodes cells).toFinset) \ (acceptedCodes cells).toFinset)
                ∪ unionSources (unloadPassthrough p s).key_sources } := by
      rw [loadPassthrough_csvOk_eq]
      rw [unloadPassthrough_eq_of_lookup _ _ (acceptedCodes cells) hlk, hme]
    rw [loadPassthrough_csvOk_eq p cells (loadPassthrough (LoadOutcome.csvOk p cells) s),
        hu2, loadPassthrough_csvOk_eq p cells s]
    simp only [Registry.mk.injEq, true_and]
    ext x
    simp only [Finset.mem_union, Finset.mem_sdiff]
    constructor
    · rintro ((⟨hX, hn⟩ | hU) | hA2)
      · rcases hX with hm | hA3
        · exact Or.inl hm
        · exact absurd hA3 hn
      · exact Or.inl (hUsub hU)
      · exact Or.inr hA2
    · rintro (hm | hA2)
      · by_cases hA3 : x ∈ (acceptedCodes cells).toFinset
        · exact Or.inr hA3
        · exact Or.inl (Or.inl ⟨Or.inl hm, hA3⟩)
      · exact Or.inr hA2

/-- sampleRegB is a small concrete registry (one source "b" = {7}, an
extra merged code 9) used by witnesses. -/
def sampleRegB : Registry := { key_sources := [("b", [7])], passthrough_keys := {7, 9} }

/-- Witness for c9_load_idempotent at a registry holding one other
source and an extra merged code, loading a file with a skipped cell and
a rejected negative cell. -/
theorem c9_load_idempotent_witness :
    unionSources sampleRegB.key_sources ⊆ sampleRegB.passthrough_keys ∧
    loadPassthrough (LoadOutcome.csvOk "a" [some 3, none, some (-2), some 7])
        (loadPassthrough (LoadOutcome.csvOk "a" [some 3, none, some (-2), some 7])
          sampleRegB)
      = loadPassthrough (LoadOutcome.csvOk "a" [some 3, none, some (-2), some 7])
          sampleRegB :=
  ⟨by decide,
   c9_load_idempotent (LoadOutcome.csvOk "a" [some 3, none, some (-2), some 7])
     sampleRegB (by decide)⟩

/-- sampleRegA42 is a concrete registry with one loaded source
"a" = {42}, used to exhibit the reload-after-parse-error behavior. -/
def sampleRegA42 : Registry := { key_sources := [("a", [42])], passthrough_keys := {42} }

/-- C5 counterexample: with source "a" = {42} loaded, a CSV parse error
while reloading "a" does NOT leave the registry unchanged: the old
source has already been unloaded when the parse error is thrown, so the
sources map and merged set both differ from their prior values. -/
theorem c5_counterexample :
    mapLookup "a" (loadPassthrough (LoadOutcome.csvFail "a")
        sampleRegA42).key_sources = none ∧
    mapLookup "a" sampleRegA42.key_sources = some [42] ∧
    loadPassthrough (LoadOutcome.csvFail "a") sampleRegA42 ≠ sampleRegA42 := by
  decide

/-- C5 amended: a CSV parse error is contained inside load (no exception
reaches the caller; the function is total), but the registry is left in
the state produced by the preceding unload(path): the failed file's own
source is gone; the prior state is preserved exactly when the path had
no live source. -/
theorem c5_amended_parse_error (p : String) (s : Registry) :
    loadPassthrough (LoadOutcome.csvFail p) s = unloadPassthrough p s ∧
    mapLookup p (loadPassthrough (LoadOutcome.csvFail p) s).key_sources = none ∧
    (mapLookup p s.key_sources = none →
      loadPassthrough (LoadOutcome.csvFail p) s = s) := by
  refine ⟨rfl, lookup_unload_none p s, ?_⟩
  intro h
  exact unloadPassthrough_eq_of_none p s h

/-- Witness for c5_amended_parse_error: a parse error on a path with no
live source leaves the registry untouched. -/
theorem c5_amended_parse_error_witness :
    mapLookup "z" sampleRegA42.key_sources = none ∧
    loadPassthrough (LoadOutcome.csvFail "z") sampleRegA42 = sampleRegA42 :=
  ⟨by decide, (c5_amended_parse_error "z" _).2.2 (by decide)⟩

/-- C10: a load whose realpath() resolution fails is a no-op on the
registry: the SystemError is thrown before any mutation and caught
inside loadPassthrough (the embedding is total, no exception escapes),
so no source is unloaded and the merged set is unchanged. -/
theorem c10_realpath_fail_noop (s : Registry) :
    loadPassthrough LoadOutcome.realpathFail s = s ∧
    (loadPassthrough LoadOutcome.realpathFail s).passthrough_keys
      = s.passthrough_keys ∧
    (∀ q : String, mapLookup q (loadPassthrough LoadOutcome.realpathFail s).key_sources
      = mapLookup q s.key_sources) :=
  ⟨rfl, rfl, fun _ => rfl⟩

/-- C4: a passthrough CSV delivered by a filesystem event is loaded into
the registry exactly when its permission mode is 0644 and its owner is
the daemon UID (stated for a path with no prior source and a parseable
file); on rejection the registry is returned unchanged and no error is
thrown (the embedding is total). -/
theorem c4_permission_gate (stMode stUid uid : Nat) (p : String)
    (cells : List (Option Int)) (s : Registry)
    (hp : mapLookup p s.key_sources = none) :
    ((stMode &&& 0o777 = 0o644 ∧ stUid = uid) ↔
      mapLookup p (loadPassthroughFS stMode stUid uid
          (LoadOutcome.csvOk p cells) s).key_sources = some (acceptedCodes cells)) ∧
    ((stMode &&& 0o777 = 0o644 ∧ stUid = uid) →
      (acceptedCodes cells).toFinset
        ⊆ (loadPassthroughFS stMode stUid uid
            (LoadOutcome.csvOk p cells) s).passthrough_keys) ∧
    (¬(stMode &&& 0o777 = 0o644 ∧ stUid = uid) →
      loadPassthroughFS stMode stUid uid (LoadOutcome.csvOk p cells) s = s) := by
  by_cases hc : stMode &&& 0o777 = 0o644 ∧ stUid = uid
  · refine ⟨⟨fun _ => ?_, fun _ => hc⟩, fun _ => ?_, fun h => absurd hc h⟩
    · simp only [loadPassthroughFS, if_pos hc, loadPassthrough_csvOk_eq,
        unloadPassthrough_eq_of_none p s hp]
      exact mapLookup_append_self p _ s.key_sources hp
    · simp only [loadPassthroughFS, if_pos hc, loadPassthrough_csvOk_eq]
      exact Finset.subset_union_right
  · refine ⟨⟨fun h => absurd h hc, fun h => ?_⟩, fun h => absurd h hc, fun _ => ?_⟩
    · simp only [loadPassthroughFS, if_neg hc] at h
      rw [hp] at h
      exact Option.noConfusion h
    · simp only [loadPassthroughFS, if_neg hc]

/-- Witness for c4_permission_gate: a regular file with mode 0644 owned
by the daemon UID is accepted and its codes installed. -/
theorem c4_permission_gate_witness :
    mapLookup "k" (loadPassthroughFS 0o100644 1000 1000
        (LoadOutcome.csvOk "k" [some 42]) initRegistry).key_sources
      = some (acceptedCodes [some 42]) :=
  (c4_permission_gate 0o100644 1000 1000 "k" [some 42] initRegistry
    (by decide)).1.mp (by decide)

lemma actEmits_nil : actEmits [] = [] := rfl

lemma actEmits_cons_emit (e : KeyEvent) (l : List Act) :
    actEmits (Act.emit e :: l) = e :: actEmits l := rfl

lemma actEmits_cons_flush (l : List Act) : actEmits (Act.flush :: l) = actEmits l := rfl

lemma actEmits_cons_upAll (l : List Act) : actEmits (Act.upAll :: l) = actEmits l := rfl

lemma actEmits_cons_send (e : KeyEvent) (l : List Act) :
    actEmits (Act.send e :: l) = actEmits l := rfl

lemma actEmits_cons_recon (l : List Act) : actEmits (Act.recon :: l) = actEmits l := rfl

lemma actEmits_cons_unlock (n : Nat) (l : List Act) :
    actEmits (Act.unlockKbd n :: l) = actEmits l := rfl

lemma actEmits_cons_lock (n : Nat) (l : List Act) :
    actEmits (Act.lockKbd n :: l) = actEmits l := rfl

lemma actEmits_cons_disable (n : Nat) (l : List Act) :
    actEmits (Act.disableKbd n :: l) = actEmits l := rfl

lemma actEmits_append (a b : List Act) :
    actEmits (a ++ b) = actEmits a ++ actEmits b := by
  simp [actEmits]

lemma actEmits_map_emit (l : List KeyEvent) : actEmits (l.map Act.emit) = l := by
  induction l with
  | nil => rfl
  | cons e t ih =>
    rw [List.map_cons, actEmits_cons_emit, ih]

lemma actEmits_unlockAll (uf : Nat → Bool) (l : List Kbd) :
    actEmits (unlockAllKbds uf l).1 = [] := by
  induction l with
  | nil => rfl
  | cons k t ih =>
    by_cases h : uf k.id
    · simp only [unlockAllKbds, h, if_pos, actEmits_cons_unlock, actEmits_cons_disable]
      exact ih
    · simp only [unlockAllKbds, h, if_neg, if_false, actEmits_cons_unlock]
      exact ih

lemma actEmits_lockAll (lf : Nat → Bool) (l : List Kbd) :
    actEmits (lockAllKbds lf l).1 = [] := by
  induction l with
  | nil => rfl
  | cons k t ih =>
    by_cases h : lf k.id
    · simp only [lockAllKbds, h, if_pos, actEmits_cons_lock]
      exact ih
    · simp only [lockAllKbds, h, if_neg, if_false, actEmits_cons_lock]
      exact ih

/-- recoveryKbd is the net effect of the socket-error recovery on one
available keyboard: the unlock pass disables it when unlock fails and
otherwise leaves it OPEN, then the lock pass re-locks it unless the
lock attempt fails (a lock failure is only logged, the keyboard keeps
the state the unlock pass left it in). -/
def recoveryKbd (uf lf : Nat → Bool) (k : Kbd) : Kbd :=
  let k1 := if uf k.id then { k with state := KBDState.DISABLED }
            else { k with state := KBDState.OPEN }
  if lf k.id then k1 else { k1 with state := KBDState.LOCKED }

lemma unlockAllKbds_snd (uf : Nat → Bool) (l : List Kbd) :
    (unlockAllKbds uf l).2 = l.map (fun k =>
      if uf k.id then { k with state := KBDState.DISABLED }
      else { k with state := KBDState.OPEN }) := by
  induction l with
  | nil => rfl
  | cons k t ih =>
    by_cases h : uf k.id <;> simp [unlockAllKbds, h, ih]

lemma lockAllKbds_snd (lf : Nat → Bool) (l : List Kbd) :
    (lockAllKbds lf l).2 = l.map (fun k =>
      if lf k.id then k else { k with state := KBDState.LOCKED }) := by
  induction l with
  | nil => rfl
  | cons k t ih =>
    by_cases h : lf k.id <;> simp [lockAllKbds, h, ih]

lemma lockAll_unlockAll_map (uf lf : Nat → Bool) (l : List Kbd) :
    (lockAllKbds lf (unlockAllKbds uf l).2).2 = l.map (recoveryKbd uf lf) := by
  rw [lockAllKbds_snd, unlockAllKbds_snd, List.map_map]
  apply List.map_congr_left
  intro k _
  simp only [Function.comp_apply, recoveryKbd]
  by_cases hu : uf k.id <;> by_cases hl : lf k.id <;> simp [hu, hl]

lemma runIteration_locked (merged : Finset Int) (i : Nat) (ev : KeyEvent)
    (peer : PeerResult) (uf lf : Nat → Bool) (st : DaemonState) (kbd : Kbd)
    (hk : st.available_kbds.get? i = some kbd) (hs : kbd.state = KBDState.LOCKED) :
    runIteration merged (ReadResult.ok i ev) peer uf lf st
      = dispatchEvent merged ev peer uf lf st := by
  simp only [runIteration, hk, hs]

/-- C3: for a passthrough event answered without socket error, the
events of the peer's non-done replies are emitted to the uinput device
exactly and in order (then flushed), and the original event is dropped:
with zero replies nothing is emitted at all (the event is swallowed),
with one or more replies exactly those are emitted. -/
theorem c3_peer_protocol (merged : Finset Int) (i : Nat) (ev : KeyEvent)
    (replies : List KeyEvent) (uf lf : Nat → Bool) (st : DaemonState) (kbd : Kbd)
    (hk : st.available_kbds.get? i = some kbd) (hs : kbd.state = KBDState.LOCKED)
    (hm : (ev.code : Int) ∈ merged) :
    (runIteration merged (ReadResult.ok i ev) (PeerResult.ok replies) uf lf st).2
      = Act.send ev :: (replies.map Act.emit ++ [Act.flush]) ∧
    actEmits (runIteration merged (ReadResult.ok i ev)
        (PeerResult.ok replies) uf lf st).2 = replies ∧
    (runIteration merged (ReadResult.ok i ev) (PeerResult.ok replies) uf lf st).1
      = st := by
  rw [runIteration_locked merged i ev _ uf lf st kbd hk hs]
  simp only [dispatchEvent, if_pos hm]
  refine ⟨trivial, ?_, trivial⟩
  rw [actEmits_cons_send, actEmits_append, actEmits_map_emit,
      actEmits_cons_flush, actEmits_nil, List.append_nil]

/-- sampleEv is a concrete passthrough event (EV_KEY, code 30, press). -/
def sampleEv : KeyEvent := { tv_sec := 0, tv_usec := 0, type := 1, code := 30, value := 1 }

/-- sampleEv2 is a concrete reply event (EV_KEY, code 57, press). -/
def sampleEv2 : KeyEvent := { tv_sec := 0, tv_usec := 0, type := 1, code := 57, value := 1 }

/-- sampleSt is a loop state with one LOCKED keyboard and nothing
pending. -/
def sampleSt : DaemonState :=
  { available_kbds := [{ id := 0, state := KBDState.LOCKED }], pulled_kbds := [] }

/-- Witness for c3_peer_protocol: one reply event replaces the original
passthrough event. -/
theorem c3_peer_protocol_witness :
    actEmits (runIteration {30} (ReadResult.ok 0 sampleEv)
        (PeerResult.ok [sampleEv2]) (fun _ => false) (fun _ => false) sampleSt).2
      = [sampleEv2] ∧
    (runIteration {30} (ReadResult.ok 0 sampleEv)
        (PeerResult.ok [sampleEv2]) (fun _ => false) (fun _ => false) sampleSt).1
      = sampleSt :=
  ⟨(c3_peer_protocol {30} 0 sampleEv [sampleEv2] (fun _ => false) (fun _ => false)
      sampleSt { id := 0, state := KBDState.LOCKED } (by decide) (by decide)
      (by decide)).2.1,
   (c3_peer_protocol {30} 0 sampleEv [sampleEv2] (fun _ => false) (fun _ => false)
      sampleSt { id := 0, state := KBDState.LOCKED } (by decide) (by decide)
      (by decide)).2.2⟩

/-- C8: an event whose code is not in the merged passthrough set is
emitted directly to the synthetic device and flushed, the peer channel
is not used (no send appears in the trace), and the loop state is
unchanged. -/
theorem c8_non_passthrough (merged : Finset Int) (i : Nat) (ev : KeyEvent)
    (peer : PeerResult) (uf lf : Nat → Bool) (st : DaemonState) (kbd : Kbd)
    (hk : st.available_kbds.get? i = some kbd) (hs : kbd.state = KBDState.LOCKED)
    (hm : (ev.code : Int) ∉ merged) :
    (runIteration merged (ReadResult.ok i ev) peer uf lf st).2
      = [Act.emit ev, Act.flush] ∧
    (∀ e : KeyEvent, Act.send e ∉ (runIteration merged (ReadResult.ok i ev)
        peer uf lf st).2) ∧
    (runIteration merged (ReadResult.ok i ev) peer uf lf st).1 = st := by
  rw [runIteration_locked merged i ev peer uf lf st kbd hk hs]
  simp only [dispatchEvent, if_neg hm]
  refine ⟨trivial, ?_, trivial⟩
  intro e
  simp

/-- Witness for c8_non_passthrough: code 31 is not in the registry {30},
so the event goes straight to the emitter. -/
theorem c8_non_passthrough_witness :
    (runIteration {30}
        (ReadResult.ok 0 { tv_sec := 0, tv_usec := 0, type := 1, code := 31, value := 1 })
        (PeerResult.ok []) (fun _ => false) (fun _ => false) sampleSt).2
      = [Act.emit { tv_sec := 0, tv_usec := 0, type := 1, code := 31, value := 1 },
         Act.flush] ∧
    (runIteration {30}
        (ReadResult.ok 0 { tv_sec := 0, tv_usec := 0, type := 1, code := 31, value := 1 })
        (PeerResult.ok []) (fun _ => false) (fun _ => false) sampleSt).1 = sampleSt :=
  ⟨(c8_non_passthrough {30} 0 _ (PeerResult.ok []) (fun _ => false) (fun _ => false)
      sampleSt { id := 0, state := KBDState.LOCKED } (by decide) (by decide)
      (by decide)).1,
   (c8_non_passthrough {30} 0 _ (PeerResult.ok []) (fun _ => false) (fun _ => false)
      sampleSt { id := 0, state := KBDState.LOCKED } (by decide) (by decide)
      (by decide)).2.2⟩

/-- C7: when reading from keyboard `i` fails with a KeyboardError, that
keyboard is disabled and moved from the active list to the end of the
pending-replug list, nothing is emitted or sent for this iteration, and
the iteration yields a successor state (the loop continues). -/
theorem c7_read_error (merged : Finset Int) (i : Nat) (peer : PeerResult)
    (uf lf : Nat → Bool) (st : DaemonState) (kbd : Kbd)
    (hk : st.available_kbds.get? i = some kbd)
    (hnd : st.available_kbds.Nodup) :
    (∀ k : Kbd, k ∈ (runIteration merged (ReadResult.fail i)
        peer uf lf st).1.available_kbds ↔ k ≠ kbd ∧ k ∈ st.available_kbds) ∧
    (runIteration merged (ReadResult.fail i) peer uf lf st).1.pulled_kbds
      = st.pulled_kbds ++ [{ kbd with state := KBDState.DISABLED }] ∧
    (runIteration merged (ReadResult.fail i) peer uf lf st).2
      = [Act.disableKbd kbd.id] ∧
    actEmits (runIteration merged (ReadResult.fail i) peer uf lf st).2 = [] ∧
    (∀ e : KeyEvent, Act.send e ∉ (runIteration merged (ReadResult.fail i)
        peer uf lf st).2) := by
  have hred : runIteration merged (ReadResult.fail i) peer uf lf st
      = ({ available_kbds := st.available_kbds.erase kbd,
           pulled_kbds := st.pulled_kbds
             ++ [{ kbd with state := KBDState.DISABLED }] },
         [Act.disableKbd kbd.id]) := by
    simp only [runIteration, hk]
  rw [hred]
  refine ⟨?_, rfl, rfl, rfl, ?_⟩
  · intro k
    exact hnd.mem_erase_iff
  · intro e
    simp

/-- Witness for c7_read_error: the lone keyboard is moved to the pending
list and its disable call is the only action. -/
theorem c7_read_error_witness :
    (runIteration ∅ (ReadResult.fail 0) (PeerResult.ok [])
        (fun _ => false) (fun _ => false) sampleSt).1.pulled_kbds
      = sampleSt.pulled_kbds ++ [{ id := 0, state := KBDState.DISABLED }] ∧
    (runIteration ∅ (ReadResult.fail 0) (PeerResult.ok [])
        (fun _ => false) (fun _ => false) sampleSt).2 = [Act.disableKbd 0] :=
  ⟨(c7_read_error ∅ 0 (PeerResult.ok []) (fun _ => false) (fun _ => false)
      sampleSt { id := 0, state := KBDState.LOCKED } (by decide) (by decide)).2.1,
   (c7_read_error ∅ 0 (PeerResult.ok []) (fun _ => false) (fun _ => false)
      sampleSt { id := 0, state := KBDState.LOCKED } (by decide) (by decide)).2.2.1⟩

/-- C1 amended: on a socket error during the peer exchange for a
passthrough event, the loop emits the original event verbatim (after
any partial replies already buffered), runs upAll-and-flush twice,
attempts unlock on every active keyboard and disables those whose
UNLOCK fails, reconnects, re-attempts lock on every active keyboard
where a lock failure is only logged (the keyboard is left un-relocked,
NOT disabled), and drops the current event (nothing is emitted after
the recovery; the pending list is untouched). -/
theorem c1_amended_recovery (merged : Finset Int) (i : Nat) (ev : KeyEvent)
    (part : List KeyEvent) (uf lf : Nat → Bool) (st : DaemonState) (kbd : Kbd)
    (hk : st.available_kbds.get? i = some kbd) (hs : kbd.state = KBDState.LOCKED)
    (hm : (ev.code : Int) ∈ merged) :
    (runIteration merged (ReadResult.ok i ev) (PeerResult.errAt part) uf lf st).2
      = Act.send ev :: (part.map Act.emit
          ++ ([Act.emit ev, Act.upAll, Act.flush, Act.upAll, Act.flush]
            ++ ((unlockAllKbds uf st.available_kbds).1
              ++ (Act.recon ::
                (lockAllKbds lf (unlockAllKbds uf st.available_kbds).2).1)))) ∧
    actEmits (runIteration merged (ReadResult.ok i ev)
        (PeerResult.errAt part) uf lf st).2 = part ++ [ev] ∧
    (runIteration merged (ReadResult.ok i ev)
        (PeerResult.errAt part) uf lf st).1.available_kbds
      = st.available_kbds.map (recoveryKbd uf lf) ∧
    (runIteration merged (ReadResult.ok i ev)
        (PeerResult.errAt part) uf lf st).1.pulled_kbds = st.pulled_kbds ∧
    (∀ k : Kbd, k ∈ st.available_kbds → uf k.id = false → lf k.id = true →
      recoveryKbd uf lf k = { k with state := KBDState.OPEN } ∧
      (recoveryKbd uf lf k).state ≠ KBDState.DISABLED) := by
  rw [runIteration_locked merged i ev _ uf lf st kbd hk hs]
  simp only [dispatchEvent, if_pos hm, socketErrorRecovery]
  refine ⟨by rw [List.append_assoc], ?_, ?_, trivial, ?_⟩
  · simp [actEmits_cons_send, actEmits_append, actEmits_map_emit,
      actEmits_cons_emit, actEmits_cons_upAll, actEmits_cons_flush,
      actEmits_cons_recon, actEmits_unlockAll, actEmits_lockAll, actEmits_nil]
  · exact lockAll_unlockAll_map uf lf st.available_kbds
  · intro k _ hu hl
    constructor
    · simp [recoveryKbd, hu, hl]
    · simp [recoveryKbd, hu, hl]

/-- C1 counterexample: one LOCKED keyboard that unlocks fine but fails
to re-lock after the reconnect: the claim requires it to be disabled,
but the code only logs the failure and the keyboard ends the recovery
OPEN with no disable call in the trace. -/
theorem c1_counterexample :
    (runIteration {30} (ReadResult.ok 0 sampleEv) (PeerResult.errAt [])
        (fun _ => false) (fun _ => true) sampleSt).1.available_kbds
      = [{ id := 0, state := KBDState.OPEN }] ∧
    Act.disableKbd 0 ∉ (runIteration {30} (ReadResult.ok 0 sampleEv)
        (PeerResult.errAt []) (fun _ => false) (fun _ => true) sampleSt).2 ∧
    KBDState.OPEN ≠ KBDState.DISABLED := by
  decide

/-- Witness for c1_amended_recovery: the original event is re-emitted
and the relock-failing keyboard ends up OPEN (mapped by recoveryKbd),
not disabled. -/
theorem c1_amended_recovery_witness :
    actEmits (runIteration {30} (ReadResult.ok 0 sampleEv)
        (PeerResult.errAt []) (fun _ => false) (fun _ => true) sampleSt).2
      = [] ++ [sampleEv] ∧
    (runIteration {30} (ReadResult.ok 0 sampleEv)
        (PeerResult.errAt []) (fun _ => false) (fun _ => true) sampleSt).1.available_kbds
      = sampleSt.available_kbds.map (recoveryKbd (fun _ => false) (fun _ => true)) :=
  ⟨(c1_amended_recovery {30} 0 sampleEv [] (fun _ => false) (fun _ => true)
      sampleSt { id := 0, state := KBDState.LOCKED } (by decide) (by decide)
      (by decide)).2.1,
   (c1_amended_recovery {30} 0 sampleEv [] (fun _ => false) (fun _ => true)
      sampleSt { id := 0, state := KBDState.LOCKED } (by decide) (by decide)
      (by decide)).2.2.1⟩

lemma four_land_grp (m : Nat) : 4 &&& (m &&& 56) = 0 := by
  rw [Nat.land_comm m 56, ← Nat.land_assoc]
  have h : (4 : Nat) &&& 56 = 0 := by decide
  rw [h]
  simp

/-- C6 (code bug): the do-while condition
`ret != -1 && !(4 & grp_perm && grp_perm & 2) && st_gid != input_gid`
does not implement the documented conjunction "character device AND
group rw AND group == input".  First, `grp_perm = st_mode & S_IRWXG`
keeps only bits 3..5, so `4 & grp_perm` is always zero and the group-rw
test can never fire (third conjunct below); consequently, while stat
succeeds the loop exits exactly when the gid matches the input group,
regardless of permissions (first conjunct: a char device with group
permissions 0 but gid == input is accepted immediately instead of being
polled until rw appears), and a failing stat also ends the wait with
`proceed` (second conjunct) instead of timing out. -/
theorem c6_hotplug_wait_bug :
    hotplugWait (fun _ => { ok := true, mode := 0o020600, gid := 77 }) 77
      = WaitResult.proceed ∧
    hotplugWait (fun _ => { ok := false, mode := 0, gid := 0 }) 77
      = WaitResult.proceed ∧
    (∀ mode gid g : Nat,
      hotplugWaitContinue { ok := true, mode := mode, gid := gid } g
        = (gid != g)) := by
  refine ⟨by decide, by decide, ?_⟩
  intro mode gid g
  simp only [hotplugWaitContinue]
  rw [four_land_grp]
  simp
